import Mathlib

/-!
Verification of the background job pipeline of the Spotify/Last.fm shuffle
worker (`src/index.ts`).

The pure algorithms (cumulative shuffle, track matcher, batched playlist
publisher) are embedded directly; the effectful orchestration
(`startPlaylistGeneration`) is embedded as a function from an environment
(the results the external services return) to the list of events it
performs: status-snapshot writes to the KV store, the playlist-creation
call and the add-tracks batch calls.  Randomness (`Math.random`) is
embedded as an explicitly passed function; each Fisher-Yates draw
`Math.floor(Math.random() * (j + 1))` becomes `rand j % (j + 1)`, which
ranges over exactly the values `0..j` the code can draw.
-/

/-- Spotify artist object, `{ name: string }` in `SpotifyTrack.artists`. -/
structure SpotifyArtist where
  name : String
deriving DecidableEq, Repr

/-- Interface `SpotifyTrack` of `index.ts` (the fields the pipeline uses). -/
structure SpotifyTrack where
  id : String
  name : String
  artists : List SpotifyArtist
  uri : String
deriving DecidableEq, Repr

/-- Interface `TrackWithPlayCount extends SpotifyTrack` of `index.ts`:
a Spotify track together with `lastFmPlayCount: number | null`. -/
structure TrackWithPlayCount extends SpotifyTrack where
  lastFmPlayCount : Option Nat
deriving DecidableEq, Repr

/-- One entry of the array returned by `fetchLastFmTopTracks`:
`{ artist: string, name: string, playcount: number }`. -/
structure LastFmTopTrack where
  artist : String
  name : String
  playcount : Nat
deriving DecidableEq, Repr

/-! ## Cumulative Shuffle Engine (`applyShuffleLogic`, index.ts lines 354-398) -/

/-- The effective play count used by `applyShuffleLogic`:
`track.lastFmPlayCount !== null ? track.lastFmPlayCount : 0`. -/
def effectivePlayCount (t : TrackWithPlayCount) : Nat :=
  t.lastFmPlayCount.getD 0

/-- The group `playCountGroups.get(i)` built by `applyShuffleLogic`: the tracks
whose effective play count equals `i`, in input order (the JS `Map` groups are
filled by one pass over `tracks`, so each group keeps input order). -/
def groupAt (tracks : List TrackWithPlayCount) (i : Nat) : List TrackWithPlayCount :=
  tracks.filter (fun t => effectivePlayCount t = i)

/-- The running maximum `maxPlayCount` computed by `applyShuffleLogic`
(initialised to `0`, updated whenever a larger effective play count is seen). -/
def maxPlayCount (tracks : List TrackWithPlayCount) : Nat :=
  tracks.foldl (fun m t => max m (effectivePlayCount t)) 0

/-- Swap of two positions of a list; identity when an index is out of bounds.
This embeds the JS destructuring swap on the array copy. -/
def listSwap (l : List α) (i j : Nat) : List α :=
  match l[i]?, l[j]? with
  | some x, some y => (l.set i y).set j x
  | _, _ => l

/-- The Fisher-Yates loop of `applyShuffleLogic`: for `j` from `length - 1`
down to `1`, swap index `j` with index `rand j % (j + 1)` (the embedding of
`Math.floor(Math.random() * (j + 1))`, a value in `0..j`). -/
def fisherYatesAux (rand : Nat → Nat) : Nat → List α → List α
  | 0, l => l
  | j + 1, l => fisherYatesAux rand j (listSwap l (j + 1) (rand (j + 1) % (j + 2)))

/-- Fisher-Yates shuffle of a list under the draw function `rand`. -/
def fisherYates (rand : Nat → Nat) (l : List α) : List α :=
  fisherYatesAux rand (l.length - 1) l

/-- The level loop of `applyShuffleLogic`: for each level `i` in `levels`,
extend the cumulative pool with the group of play count `i` (a no-op when the
group is empty, matching the `playCountGroups.has(i)` guard), and if the pool
is non-empty append a Fisher-Yates shuffle of a copy of it to the output. -/
def shuffleLevels (rand : Nat → Nat → Nat) (tracks : List TrackWithPlayCount) :
    List Nat → List TrackWithPlayCount → List TrackWithPlayCount
  | [], _ => []
  | i :: rest, pool =>
    let pool' := pool ++ groupAt tracks i
    (if 0 < pool'.length then fisherYates (rand i) pool' else [])
      ++ shuffleLevels rand tracks rest pool'

/-- Function `applyShuffleLogic` of `index.ts`: empty input returns empty;
otherwise run the level loop for `i` from `0` to `maxPlayCount` with an
initially empty cumulative pool. -/
def applyShuffleLogic (rand : Nat → Nat → Nat) (tracks : List TrackWithPlayCount) :
    List TrackWithPlayCount :=
  if tracks.length = 0 then []
  else shuffleLevels rand tracks (List.range (maxPlayCount tracks + 1)) []

/-- The cumulative pool after the first `n` levels have been processed:
the groups of play counts `0, 1, ..., n - 1` concatenated in level order. -/
def poolUpTo (tracks : List TrackWithPlayCount) (n : Nat) : List TrackWithPlayCount :=
  (List.range n).flatMap (fun j => groupAt tracks j)

/-- The block `applyShuffleLogic` appends at level `i`: a Fisher-Yates shuffle
of the cumulative pool of levels `0..i` when that pool is non-empty, nothing
otherwise. -/
def blockAt (rand : Nat → Nat → Nat) (tracks : List TrackWithPlayCount) (i : Nat) :
    List TrackWithPlayCount :=
  if 0 < (poolUpTo tracks (i + 1)).length then fisherYates (rand i) (poolUpTo tracks (i + 1))
  else []

/-! ## Track Matcher (startPlaylistGeneration, index.ts lines 498-524) -/

/-- JS `String.prototype.toLowerCase`, embedded as a character-wise lowering
of the string's characters. -/
def lowerString (s : String) : String :=
  ⟨s.data.map Char.toLower⟩

/-- JS `String.prototype.trim`: drop whitespace from both ends. -/
def trimString (s : String) : String :=
  ⟨((s.data.dropWhile Char.isWhitespace).reverse.dropWhile Char.isWhitespace).reverse⟩

/-- The normalized Last.fm-side key of the play-count map:
`track.artist.toLowerCase().trim() + " - " + track.name.toLowerCase().trim()`. -/
def lastFmKey (t : LastFmTopTrack) : String :=
  trimString (lowerString t.artist) ++ " - " ++ trimString (lowerString t.name)

/-- The normalized Spotify-side key:
`track.artists.map(a => a.name).join(", ").toLowerCase().trim()
 + " - " + track.name.toLowerCase().trim()`. -/
def spotifyKey (t : SpotifyTrack) : String :=
  trimString (lowerString (String.intercalate ", " (t.artists.map SpotifyArtist.name)))
    ++ " - " ++ trimString (lowerString t.name)

/-- The JS `Map` `lastFmPlayCountMap`: one pass of `Map.set` per Last.fm top
track, so a later record with the same key overwrites an earlier one. -/
def buildLastFmPlayCountMap (topTracks : List LastFmTopTrack) : String → Option Nat :=
  topTracks.foldl (fun m r => fun k => if k = lastFmKey r then some r.playcount else m k)
    (fun _ => none)

/-- One iteration of the matching loop: look the Spotify track's key up in the
play-count map, and push a `TrackWithPlayCount` onto the accumulator only on a
hit (`playCount !== undefined`). -/
def matchStep (m : String → Option Nat) (acc : List TrackWithPlayCount)
    (t : SpotifyTrack) : List TrackWithPlayCount :=
  match m (spotifyKey t) with
  | some pc => acc ++ [⟨t, some pc⟩]
  | none => acc

/-- The Track Matcher of `startPlaylistGeneration`: builds the play-count map
from the Last.fm top tracks, then walks the liked tracks in order keeping the
matched ones. -/
def matchTracks (likedTracks : List SpotifyTrack) (topTracks : List LastFmTopTrack) :
    List TrackWithPlayCount :=
  likedTracks.foldl (matchStep (buildLastFmPlayCountMap topTracks)) []

/-- The match result for a single track, as an `Option`. -/
def matchOne (m : String → Option Nat) (t : SpotifyTrack) : Option TrackWithPlayCount :=
  match m (spotifyKey t) with
  | some pc => some ⟨t, some pc⟩
  | none => none

/-! ## Job orchestration (startPlaylistGeneration, index.ts lines 460-586)

The orchestrator is embedded as a function from an environment (the results
the external services return) to the list of events it performs in order:
KV status-snapshot writes, the playlist-creation request, and the add-tracks
batch requests.  The `timestamp: Date.now()` field of each snapshot is
outside the embedding (real time); every other field is kept. -/

/-- The `status` values of interface `PlaylistStatus` in `index.ts`. -/
inductive JobState
  | pending
  | fetching_liked_songs
  | fetching_lastfm_top_tracks
  | matching_tracks
  | applying_shuffle_logic
  | creating_playlist
  | adding_tracks
  | completed
  | failed
deriving DecidableEq, Repr

/-- One status snapshot written to the KV store, together with the
`expirationTtl` option passed to `SPOTIFY_TOKENS.put` (`none` when the put
carries no TTL). -/
structure PlaylistStatusSnapshot where
  status : JobState
  message : String
  playlistUrl : Option String
  error : Option String
  progress : Option String
  expirationTtl : Option Nat
deriving DecidableEq, Repr

/-- An observable action of the orchestrator. -/
inductive JobEvent
  | putStatus (snap : PlaylistStatusSnapshot)
  | createPlaylistCall (playlistName : String)
  | addTracksCall (uris : List String)
deriving DecidableEq, Repr

/-- The fields of the created playlist the orchestrator reads. -/
structure PlaylistInfo where
  id : String
  url : String
deriving DecidableEq, Repr

/-- The environment of one run: the page sequences the two services return, a
Spotify page being either a thrown error or a page of tracks and a Last.fm
page being a page of records or a failure (non-success status, malformed
shape, or thrown error — all take the same `break`), the result of the
playlist-creation request, the per-request results of the add-tracks calls,
the random draws, and the date string used in the playlist name. -/
structure JobEnv where
  spotifyPages : List (Except String (List SpotifyTrack))
  lastFmPages : List (Option (List LastFmTopTrack))
  createPlaylistResult : Except String PlaylistInfo
  addTracksResult : Nat → Except String Unit
  rand : Nat → Nat → Nat
  nowString : String

/-- Function `fetchAllLikedSongs` of `index.ts`: accumulate pages in order;
`spotifyApiFetch` throws on a non-ok response, so a failing page aborts the
whole fetch with that error. -/
def fetchAllLikedSongs : List (Except String (List SpotifyTrack)) →
    Except String (List SpotifyTrack)
  | [] => Except.ok []
  | Except.error e :: _ => Except.error e
  | Except.ok ts :: rest =>
    match fetchAllLikedSongs rest with
    | Except.error e => Except.error e
    | Except.ok more => Except.ok (ts ++ more)

/-- Function `fetchLastFmTopTracks` of `index.ts`: accumulate pages in order;
a failing page (non-ok status, missing data structure, or thrown error) only
breaks the pagination loop, keeping the pages fetched so far. -/
def fetchLastFmTopTracks : List (Option (List LastFmTopTrack)) → List LastFmTopTrack
  | [] => []
  | none :: _ => []
  | some ts :: rest => ts ++ fetchLastFmTopTracks rest

/-- The loop of `addTracksToPlaylist` (index.ts lines 430-446): while track
URIs remain and the request budget is not exhausted, send the next batch of at
most 100 URIs; a failing request throws, aborting the loop with that error. -/
def addTracksGo (res : Nat → Except String Unit) :
    List String → Nat → Nat → List JobEvent × Option String
  | [], _, _ => ([], none)
  | _ :: _, 0, _ => ([], none)
  | u :: us, b + 1, reqIdx =>
    let batch := (u :: us).take 100
    match res reqIdx with
    | Except.error e => ([JobEvent.addTracksCall batch], some e)
    | Except.ok _ =>
      let rest := addTracksGo res ((u :: us).drop 100) b (reqIdx + 1)
      (JobEvent.addTracksCall batch :: rest.1, rest.2)

/-- Function `addTracksToPlaylist` of `index.ts`: run the batching loop from
request index 0 with the full budget. -/
def addTracksToPlaylist (res : Nat → Except String Unit) (trackUris : List String)
    (maxRequests : Nat) : List JobEvent × Option String :=
  addTracksGo res trackUris maxRequests 0

/-- The condition of the truncation warning after the add-tracks loop
(index.ts line 443): `requestCount >= maxRequests && trackUris.length >
requestCount * batchSize`. -/
def truncationWarned (trackUris : List String) (maxRequests requestCount : Nat) : Bool :=
  decide (maxRequests ≤ requestCount) && decide (requestCount * 100 < trackUris.length)

/-- A snapshot written on entering a stage: no playlist URL, no error, the
given progress string, and no TTL. -/
def stageSnapshot (s : JobState) (msg prog : String) : PlaylistStatusSnapshot :=
  ⟨s, msg, none, none, some prog, none⟩

/-- The snapshot written by the catch block: status `failed`, the fixed
message, `error.message || "Unknown error"`, and a one-hour TTL. -/
def failedSnapshot (e : String) : PlaylistStatusSnapshot :=
  ⟨JobState.failed, "Playlist generation failed.", none,
    some (if e = "" then "Unknown error" else e), some "100%", some 3600⟩

/-- The snapshot written on entering the liked-songs fetch. -/
def fetchingLikedSnapshot : PlaylistStatusSnapshot :=
  stageSnapshot JobState.fetching_liked_songs
    "Fetching all liked songs from Spotify..." "0%"

/-- The `completed` snapshot of the empty-catalog short-circuit
(index.ts lines 482-487); note it is written with no TTL. -/
def emptyCatalogSnapshot : PlaylistStatusSnapshot :=
  ⟨JobState.completed, "No liked songs found in your Spotify library.",
    none, none, some "100%", none⟩

/-- The snapshot written on entering the Last.fm fetch. -/
def fetchingLastFmSnapshot : PlaylistStatusSnapshot :=
  stageSnapshot JobState.fetching_lastfm_top_tracks
    "Fetching all Last.fm top tracks (this may take a while for large libraries)..."
    "10%"

/-- The snapshot written on entering matching, for `n` liked tracks. -/
def matchingSnapshot (n : Nat) : PlaylistStatusSnapshot :=
  stageSnapshot JobState.matching_tracks
    ("Matching " ++ toString n ++ " Spotify songs with Last.fm data and filtering...")
    "50%"

/-- The `completed` snapshot of the empty-match short-circuit
(index.ts lines 527-532); note it is written with no TTL. -/
def emptyMatchSnapshot : PlaylistStatusSnapshot :=
  ⟨JobState.completed, "No liked songs found with Last.fm play counts. Playlist not created.",
    none, none, some "100%", none⟩

/-- The snapshot written on entering the shuffle stage. -/
def shuffleSnapshot : PlaylistStatusSnapshot :=
  stageSnapshot JobState.applying_shuffle_logic "Applying cumulative shuffle logic..." "90%"

/-- The snapshot written on entering playlist creation. -/
def creatingSnapshot : PlaylistStatusSnapshot :=
  stageSnapshot JobState.creating_playlist "Creating new Spotify playlist..." "95%"

/-- The snapshot written on entering the add-tracks stage, for `n` shuffled
tracks (the limit 4000 is `SPOTIFY_PLAYLIST_ADD_MAX_REQUESTS * 100`). -/
def addingSnapshot (n : Nat) : PlaylistStatusSnapshot :=
  stageSnapshot JobState.adding_tracks
    ("Adding " ++ toString n ++ " tracks to playlist (limited to 4000 tracks)...") "98%"

/-- The final `completed` snapshot, carrying the playlist URL and a one-hour
TTL. -/
def successSnapshot (playlistName url : String) : PlaylistStatusSnapshot :=
  ⟨JobState.completed, "Successfully created and populated playlist: " ++ playlistName,
    some url, none, some "100%", some 3600⟩

/-- The generated playlist name (the locale date string is taken from the
environment). -/
def playlistNameOf (env : JobEnv) : String :=
  "Shuffled Liked Songs (Cumulative Plays) - " ++ env.nowString

/-- Function `startPlaylistGeneration` of `index.ts` as the ordered list of
events it performs.  Every await of an external call is driven by the
environment; the catch block turns the first thrown error into a single
`failed` snapshot and ends the run. -/
def startPlaylistGeneration (env : JobEnv) : List JobEvent :=
  let s1 := JobEvent.putStatus fetchingLikedSnapshot
  match fetchAllLikedSongs env.spotifyPages with
  | Except.error e => [s1, JobEvent.putStatus (failedSnapshot e)]
  | Except.ok likedTracks =>
    if likedTracks.length = 0 then
      [s1, JobEvent.putStatus emptyCatalogSnapshot]
    else
      let s2 := JobEvent.putStatus fetchingLastFmSnapshot
      let lastFmTopTracks := fetchLastFmTopTracks env.lastFmPages
      let s3 := JobEvent.putStatus (matchingSnapshot likedTracks.length)
      let tracksWithPlayCounts := matchTracks likedTracks lastFmTopTracks
      if tracksWithPlayCounts.length = 0 then
        [s1, s2, s3, JobEvent.putStatus emptyMatchSnapshot]
      else
        let s4 := JobEvent.putStatus shuffleSnapshot
        let shuffledTracks := applyShuffleLogic env.rand tracksWithPlayCounts
        let s5 := JobEvent.putStatus creatingSnapshot
        let playlistName := playlistNameOf env
        match env.createPlaylistResult with
        | Except.error e => [s1, s2, s3, s4, s5, JobEvent.putStatus (failedSnapshot e)]
        | Except.ok newPlaylist =>
          let s6 := JobEvent.putStatus (addingSnapshot shuffledTracks.length)
          let trackUris := shuffledTracks.map (fun t => t.uri)
          let r := addTracksToPlaylist env.addTracksResult trackUris 40
          match r.2 with
          | some e =>
            [s1, s2, s3, s4, s5, JobEvent.createPlaylistCall playlistName, s6]
              ++ r.1 ++ [JobEvent.putStatus (failedSnapshot e)]
          | none =>
            [s1, s2, s3, s4, s5, JobEvent.createPlaylistCall playlistName, s6]
              ++ r.1 ++ [JobEvent.putStatus (successSnapshot playlistName newPlaylist.url)]

/-- The initial `pending` snapshot written by the `/shuffle` handler before the
background generation starts (index.ts lines 820-825). -/
def pendingSnapshot : PlaylistStatusSnapshot :=
  ⟨JobState.pending, "Playlist generation process initiated.", none, none, some "0%", none⟩

/-- The full event sequence of one job: the handler's `pending` write followed
by the background generation. -/
def jobTrace (env : JobEnv) : List JobEvent :=
  JobEvent.putStatus pendingSnapshot :: startPlaylistGeneration env

/-- Extract the snapshot of a put event. -/
def statusOf : JobEvent → Option PlaylistStatusSnapshot
  | JobEvent.putStatus s => some s
  | _ => none

/-- The sequence of snapshots written to the Status Store for one job. -/
def jobSnapshots (env : JobEnv) : List PlaylistStatusSnapshot :=
  (jobTrace env).filterMap statusOf

/-! ## The job state machine (C4) -/

/-- The two terminal states. -/
def isTerminal : JobState → Bool
  | JobState.completed => true
  | JobState.failed => true
  | _ => false

/-- The transitions the specification allows: the fixed forward order, the two
short-circuits to `completed` (empty catalog from `fetching_liked_songs`,
empty match set from `matching_tracks`), and `failed` from any non-terminal
state. -/
def allowedStep : JobState → JobState → Bool
  | JobState.pending, JobState.fetching_liked_songs => true
  | JobState.fetching_liked_songs, JobState.fetching_lastfm_top_tracks => true
  | JobState.fetching_lastfm_top_tracks, JobState.matching_tracks => true
  | JobState.matching_tracks, JobState.applying_shuffle_logic => true
  | JobState.applying_shuffle_logic, JobState.creating_playlist => true
  | JobState.creating_playlist, JobState.adding_tracks => true
  | JobState.adding_tracks, JobState.completed => true
  | JobState.fetching_liked_songs, JobState.completed => true
  | JobState.matching_tracks, JobState.completed => true
  | s, JobState.failed => !isTerminal s
  | _, _ => false

/-- Adjacent pairs of the list all satisfy `R`. -/
def chainOK (R : JobState → JobState → Bool) : List JobState → Bool
  | [] => true
  | [_] => true
  | a :: b :: rest => R a b && chainOK R (b :: rest)

/-- A status sequence is valid when it starts at `pending`, every step is an
allowed transition, and no terminal state is followed by anything. -/
def validTrace (sts : List JobState) : Bool :=
  (sts.head? == some JobState.pending) && chainOK allowedStep sts
    && sts.dropLast.all (fun s => !isTerminal s)

/-- The batches submitted by the add-tracks events, in order. -/
def callBatches (evs : List JobEvent) : List (List String) :=
  evs.filterMap (fun ev => match ev with
    | JobEvent.addTracksCall b => some b
    | _ => none)


/-! ## Fisher-Yates is a permutation -/

lemma coe_set_add {α : Type _} (l : List α) (i : Nat) (a : α) (h : i < l.length) :
    ((l.set i a : List α) : Multiset α) + {l[i]} = (l : Multiset α) + {a} := by
  induction l generalizing i with
  | nil => simp at h
  | cons x xs ih =>
    cases i with
    | zero =>
      simp only [List.set_cons_zero, List.getElem_cons_zero, ← Multiset.cons_coe,
        ← Multiset.singleton_add]
      abel
    | succ n =>
      have h' : n < xs.length := by simpa using h
      simp only [List.set_cons_succ, List.getElem_cons_succ, ← Multiset.cons_coe,
        ← Multiset.singleton_add]
      rw [add_assoc, add_assoc, ih n h']

lemma coe_listSwap {α : Type _} (l : List α) (i j : Nat) :
    ((listSwap l i j : List α) : Multiset α) = (l : Multiset α) := by
  unfold listSwap
  split
  case h_2 => rfl
  case h_1 x y hi hj =>
    have hi' : i < l.length := (List.getElem?_eq_some_iff.mp hi).1
    have hj' : j < l.length := (List.getElem?_eq_some_iff.mp hj).1
    have hx : l[i] = x := by
      have := (List.getElem?_eq_some_iff.mp hi).2
      simpa using this
    have hy : l[j] = y := by
      have := (List.getElem?_eq_some_iff.mp hj).2
      simpa using this
    have hj'' : j < (l.set i y).length := by simpa using hj'
    have hA := coe_set_add l i y hi'
    have hB := coe_set_add (l.set i y) j x hj''
    by_cases hij : i = j
    · subst hij
      have hxy : x = y := by rw [← hx, ← hy]
      subst hxy
      have hset : (l.set i x)[i] = x := by
        rw [List.getElem_set_self]
      rw [hset] at hB
      rw [hx] at hA
      have hA' : ((l.set i x : List α) : Multiset α) = (l : Multiset α) :=
        add_right_cancel hA
      rw [hA'] at hB
      exact add_right_cancel hB
    · have hset : (l.set i y)[j] = y := by
        rw [List.getElem_set_ne (by omega)]
        exact hy
      rw [hset] at hB
      rw [hx] at hA
      -- hB : ↑((l.set i y).set j x) + {y} = ↑(l.set i y) + {x}
      -- hA : ↑(l.set i y) + {x} = ↑l + {y}
      exact add_right_cancel (hB.trans hA)

lemma listSwap_perm {α : Type _} (l : List α) (i j : Nat) : (listSwap l i j).Perm l :=
  Multiset.coe_eq_coe.mp (coe_listSwap l i j)

lemma fisherYatesAux_perm {α : Type _} (rand : Nat → Nat) (n : Nat) (l : List α) :
    (fisherYatesAux rand n l).Perm l := by
  induction n generalizing l with
  | zero => exact List.Perm.refl l
  | succ j ih =>
    exact (ih _).trans (listSwap_perm l (j + 1) (rand (j + 1) % (j + 2)))

lemma fisherYates_perm {α : Type _} (rand : Nat → Nat) (l : List α) :
    (fisherYates rand l).Perm l :=
  fisherYatesAux_perm rand (l.length - 1) l

/-! ## Structure of the cumulative shuffle output -/

lemma poolUpTo_succ (tracks : List TrackWithPlayCount) (n : Nat) :
    poolUpTo tracks (n + 1) = poolUpTo tracks n ++ groupAt tracks n := by
  unfold poolUpTo
  rw [List.range_succ, List.flatMap_append]
  simp

lemma coe_poolUpTo (tracks : List TrackWithPlayCount) (n : Nat) :
    ((poolUpTo tracks n : List TrackWithPlayCount) : Multiset TrackWithPlayCount)
      = ((tracks.filter (fun t => effectivePlayCount t < n) : List TrackWithPlayCount) :
          Multiset TrackWithPlayCount) := by
  induction n with
  | zero =>
    simp [poolUpTo]
  | succ n ih =>
    rw [poolUpTo_succ, ← Multiset.coe_add, ih]
    unfold groupAt
    rw [← Multiset.filter_coe, ← Multiset.filter_coe, ← Multiset.filter_coe,
      Multiset.filter_add_filter]
    have h1 : Multiset.filter
        (fun t => effectivePlayCount t < n ∨ effectivePlayCount t = n) (tracks : Multiset _)
        = Multiset.filter (fun t => effectivePlayCount t < n + 1) (tracks : Multiset _) := by
      apply Multiset.filter_congr
      intro t _
      constructor
      · intro h; omega
      · intro h; omega
    have h2 : Multiset.filter
        (fun t => effectivePlayCount t < n ∧ effectivePlayCount t = n) (tracks : Multiset _)
        = 0 := by
      rw [Multiset.filter_eq_nil]
      intro t _ h
      omega
    rw [h1, h2, add_zero]

lemma poolUpTo_perm_filter (tracks : List TrackWithPlayCount) (i : Nat) :
    (poolUpTo tracks (i + 1)).Perm
      (tracks.filter (fun t => effectivePlayCount t ≤ i)) := by
  apply Multiset.coe_eq_coe.mp
  rw [coe_poolUpTo]
  congr 1
  apply List.filter_congr
  intro t _
  simp [Nat.lt_succ_iff]

lemma blockAt_perm_filter (rand : Nat → Nat → Nat) (tracks : List TrackWithPlayCount)
    (i : Nat) :
    (blockAt rand tracks i).Perm (tracks.filter (fun t => effectivePlayCount t ≤ i)) := by
  unfold blockAt
  split
  · exact (fisherYates_perm _ _).trans (poolUpTo_perm_filter tracks i)
  · next h =>
    have hnil : poolUpTo tracks (i + 1) = [] := by
      cases hp : poolUpTo tracks (i + 1) with
      | nil => rfl
      | cons a l => rw [hp] at h; simp at h
    have : (tracks.filter (fun t => effectivePlayCount t ≤ i)).Perm [] := by
      rw [← hnil]
      exact (poolUpTo_perm_filter tracks i).symm
    rw [List.Perm.eq_nil this]

lemma shuffleLevels_eq_flatten (rand : Nat → Nat → Nat) (tracks : List TrackWithPlayCount)
    (n a : Nat) :
    shuffleLevels rand tracks (List.range' a n) (poolUpTo tracks a)
      = ((List.range' a n).map (blockAt rand tracks)).flatten := by
  induction n generalizing a with
  | zero => rfl
  | succ n ih =>
    rw [List.range'_succ]
    show (if 0 < (poolUpTo tracks a ++ groupAt tracks a).length then
        fisherYates (rand a) (poolUpTo tracks a ++ groupAt tracks a) else [])
        ++ shuffleLevels rand tracks (List.range' (a + 1) n)
            (poolUpTo tracks a ++ groupAt tracks a) = _
    rw [← poolUpTo_succ, ih (a + 1)]
    rfl

lemma applyShuffleLogic_eq_flatten (rand : Nat → Nat → Nat)
    (tracks : List TrackWithPlayCount) :
    applyShuffleLogic rand tracks
      = ((List.range (maxPlayCount tracks + 1)).map (blockAt rand tracks)).flatten := by
  unfold applyShuffleLogic
  split
  · next h =>
    have htracks : tracks = [] := List.length_eq_zero.mp h
    subst htracks
    have hb : ∀ i, blockAt rand ([] : List TrackWithPlayCount) i = [] := by
      intro i
      unfold blockAt
      have hp : poolUpTo ([] : List TrackWithPlayCount) (i + 1) = [] := by
        simp [poolUpTo, groupAt]
      rw [hp]
      simp
    simp [hb]
  · rw [List.range_eq_range']
    exact shuffleLevels_eq_flatten rand tracks (maxPlayCount tracks + 1) 0

/-- C1: for every input and every choice of random draws, the output of
`applyShuffleLogic` is the concatenation, over the levels `0..maxPlayCount`, of
the per-level blocks, where the block of level `i` is empty exactly when no
input track has play count at most `i` and otherwise is a permutation of the
tracks with play count at most `i`; two runs with different draws produce
blocks that are permutations of each other at every level. -/
theorem applyShuffleLogic_blocks (rand rand' : Nat → Nat → Nat)
    (tracks : List TrackWithPlayCount) :
    applyShuffleLogic rand tracks
        = ((List.range (maxPlayCount tracks + 1)).map (blockAt rand tracks)).flatten
      ∧ (∀ i, (blockAt rand tracks i).Perm
          (tracks.filter (fun t => effectivePlayCount t ≤ i)))
      ∧ (∀ i, (tracks.filter (fun t => effectivePlayCount t ≤ i)) = [] →
          blockAt rand tracks i = [])
      ∧ (∀ i, (blockAt rand tracks i).Perm (blockAt rand' tracks i)) := by
  refine ⟨applyShuffleLogic_eq_flatten rand tracks,
    fun i => blockAt_perm_filter rand tracks i, ?_, ?_⟩
  · intro i hfil
    have := blockAt_perm_filter rand tracks i
    rw [hfil] at this
    exact List.Perm.eq_nil this
  · intro i
    exact (blockAt_perm_filter rand tracks i).trans
      (blockAt_perm_filter rand' tracks i).symm

/-! ## Output length and per-track multiplicities -/

lemma sum_map_add_nat {α : Type _} (l : List α) (f g : α → Nat) :
    (l.map (fun x => f x + g x)).sum = (l.map f).sum + (l.map g).sum := by
  induction l with
  | nil => rfl
  | cons x xs ih =>
    simp only [List.map_cons, List.sum_cons, ih]
    omega

lemma sum_ite_range (n a k : Nat) :
    ((List.range n).map (fun i => if a ≤ i then k else 0)).sum = k * (n - a) := by
  induction n with
  | zero => simp
  | succ n ih =>
    rw [List.range_succ, List.map_append, List.sum_append, ih]
    by_cases h : a ≤ n
    · have h1 : n + 1 - a = (n - a) + 1 := by omega
      simp [h, h1, Nat.mul_succ]
    · have h1 : n - a = 0 := by omega
      have h2 : n + 1 - a = 0 := by omega
      simp [h, h1, h2]

lemma sum_filter_length_range (ts : List TrackWithPlayCount) (n : Nat) :
    ((List.range n).map
        (fun i => (ts.filter (fun t => effectivePlayCount t ≤ i)).length)).sum
      = (ts.map (fun t => n - effectivePlayCount t)).sum := by
  induction ts with
  | nil => simp
  | cons t ts ih =>
    have hsplit : ∀ i : Nat,
        ((t :: ts).filter (fun u => effectivePlayCount u ≤ i)).length
          = (if effectivePlayCount t ≤ i then 1 else 0)
            + (ts.filter (fun u => effectivePlayCount u ≤ i)).length := by
      intro i
      by_cases h : effectivePlayCount t ≤ i
      · simp [List.filter_cons, h]
        omega
      · simp [List.filter_cons, h]
    have hmap : (List.range n).map
          (fun i => ((t :: ts).filter (fun u => effectivePlayCount u ≤ i)).length)
        = (List.range n).map
          (fun i => (if effectivePlayCount t ≤ i then 1 else 0)
            + (ts.filter (fun u => effectivePlayCount u ≤ i)).length) := by
      apply List.map_congr_left
      intro i _
      exact hsplit i
    rw [hmap, sum_map_add_nat, sum_ite_range, ih]
    simp

lemma count_filter_eq {α : Type _} [DecidableEq α] (x : α) (l : List α) (p : α → Bool) :
    (l.filter p).count x = if p x = true then l.count x else 0 := by
  split
  · exact List.count_filter ‹_›
  · rw [List.count_eq_zero]
    intro hmem
    have hp := (List.mem_filter.mp hmem).2
    simp_all

lemma le_foldl_max (l : List TrackWithPlayCount) (b : Nat) :
    b ≤ l.foldl (fun m u => max m (effectivePlayCount u)) b := by
  induction l generalizing b with
  | nil => simp
  | cons u us ih => exact le_trans (le_max_left _ _) (ih _)

lemma mem_le_foldl_max (l : List TrackWithPlayCount) (b : Nat) (t : TrackWithPlayCount)
    (h : t ∈ l) :
    effectivePlayCount t ≤ l.foldl (fun m u => max m (effectivePlayCount u)) b := by
  induction l generalizing b with
  | nil => cases h
  | cons u us ih =>
    rcases List.mem_cons.mp h with rfl | h'
    · exact le_trans (le_max_right _ _) (le_foldl_max us _)
    · exact ih _ h'

lemma mem_le_maxPlayCount (tracks : List TrackWithPlayCount) (t : TrackWithPlayCount)
    (h : t ∈ tracks) : effectivePlayCount t ≤ maxPlayCount tracks :=
  mem_le_foldl_max tracks 0 t h

/-- C2: for non-empty input, the output length of `applyShuffleLogic` is the
sum over the input tracks of `maxPlayCount - playCount + 1` (equivalently the
sum over play-count groups of group size times that factor), every track
occurring once in the input appears in the output exactly
`maxPlayCount - playCount + 1` times, and the empty input gives empty output. -/
theorem applyShuffleLogic_length_count (rand : Nat → Nat → Nat)
    (tracks : List TrackWithPlayCount) (t : TrackWithPlayCount) (hne : tracks ≠ []) :
    (applyShuffleLogic rand tracks).length
        = (tracks.map
            (fun u => maxPlayCount tracks - effectivePlayCount u + 1)).sum
      ∧ (t ∈ tracks → tracks.count t = 1 →
          (applyShuffleLogic rand tracks).count t
            = maxPlayCount tracks - effectivePlayCount t + 1)
      ∧ applyShuffleLogic rand [] = [] := by
  refine ⟨?_, ?_, rfl⟩
  · rw [applyShuffleLogic_eq_flatten, List.length_flatten, List.map_map]
    have hmap : (List.range (maxPlayCount tracks + 1)).map
          (List.length ∘ blockAt rand tracks)
        = (List.range (maxPlayCount tracks + 1)).map
          (fun i => (tracks.filter (fun u => effectivePlayCount u ≤ i)).length) := by
      apply List.map_congr_left
      intro i _
      exact (blockAt_perm_filter rand tracks i).length_eq
    rw [hmap, sum_filter_length_range]
    apply congrArg List.sum
    apply List.map_congr_left
    intro u hu
    have := mem_le_maxPlayCount tracks u hu
    omega
  · intro hmem hcount
    rw [applyShuffleLogic_eq_flatten, List.count_flatten, List.map_map]
    have hmap : (List.range (maxPlayCount tracks + 1)).map
          (List.count t ∘ blockAt rand tracks)
        = (List.range (maxPlayCount tracks + 1)).map
          (fun i => if effectivePlayCount t ≤ i then 1 else 0) := by
      apply List.map_congr_left
      intro i _
      show (blockAt rand tracks i).count t = _
      rw [(blockAt_perm_filter rand tracks i).count_eq, count_filter_eq]
      simp only [decide_eq_true_eq, hcount]
    rw [hmap, sum_ite_range]
    have := mem_le_maxPlayCount tracks t hmem
    omega

/-- Witness for C2: the spec example, two tracks with play count 0 and one
track with play count 2 give output length 7, and the play-count-2 track
appears exactly once. -/
theorem applyShuffleLogic_length_count_witness :
    (applyShuffleLogic (fun _ _ => 0)
        [⟨⟨"a", "A", [], "u:a"⟩, some 0⟩, ⟨⟨"b", "B", [], "u:b"⟩, some 0⟩,
         ⟨⟨"c", "C", [], "u:c"⟩, some 2⟩]).length
      = ([⟨⟨"a", "A", [], "u:a"⟩, some 0⟩, ⟨⟨"b", "B", [], "u:b"⟩, some 0⟩,
          (⟨⟨"c", "C", [], "u:c"⟩, some 2⟩ : TrackWithPlayCount)].map
          (fun u => maxPlayCount
            [⟨⟨"a", "A", [], "u:a"⟩, some 0⟩, ⟨⟨"b", "B", [], "u:b"⟩, some 0⟩,
             ⟨⟨"c", "C", [], "u:c"⟩, some 2⟩] - effectivePlayCount u + 1)).sum
    ∧ (applyShuffleLogic (fun _ _ => 0)
        [⟨⟨"a", "A", [], "u:a"⟩, some 0⟩, ⟨⟨"b", "B", [], "u:b"⟩, some 0⟩,
         ⟨⟨"c", "C", [], "u:c"⟩, some 2⟩]).count ⟨⟨"c", "C", [], "u:c"⟩, some 2⟩
      = 1 := by
  have h := applyShuffleLogic_length_count (fun _ _ => 0)
    [⟨⟨"a", "A", [], "u:a"⟩, some 0⟩, ⟨⟨"b", "B", [], "u:b"⟩, some 0⟩,
     ⟨⟨"c", "C", [], "u:c"⟩, some 2⟩] ⟨⟨"c", "C", [], "u:c"⟩, some 2⟩ (by decide)
  refine ⟨h.1, ?_⟩
  have h2 := h.2.1 (by decide) (by decide)
  rw [h2]
  decide

lemma foldl_matchStep_eq (m : String → Option Nat) (liked : List SpotifyTrack)
    (acc : List TrackWithPlayCount) :
    liked.foldl (matchStep m) acc = acc ++ liked.filterMap (matchOne m) := by
  induction liked generalizing acc with
  | nil => simp
  | cons t ts ih =>
    rw [List.foldl_cons, List.filterMap_cons]
    cases h : m (spotifyKey t) with
    | none =>
      have hstep : matchStep m acc t = acc := by
        unfold matchStep
        rw [h]
      have hone : matchOne m t = none := by
        unfold matchOne
        rw [h]
      rw [hstep, hone, ih]
    | some pc =>
      have hstep : matchStep m acc t = acc ++ [⟨t, some pc⟩] := by
        unfold matchStep
        rw [h]
      have hone : matchOne m t = some ⟨t, some pc⟩ := by
        unfold matchOne
        rw [h]
      rw [hstep, hone, ih]
      simp

lemma matchTracks_eq_filterMap (liked : List SpotifyTrack) (top : List LastFmTopTrack) :
    matchTracks liked top
      = liked.filterMap (matchOne (buildLastFmPlayCountMap top)) := by
  unfold matchTracks
  rw [foldl_matchStep_eq]
  simp

lemma buildMap_lookup (topTracks : List LastFmTopTrack) (init : String → Option Nat)
    (k : String) :
    (topTracks.foldl (fun m r => fun k => if k = lastFmKey r then some r.playcount else m k)
        init) k
      = match topTracks.reverse.find? (fun r => k = lastFmKey r) with
        | some r => some r.playcount
        | none => init k := by
  induction topTracks generalizing init with
  | nil => simp
  | cons r rs ih =>
    rw [List.foldl_cons, ih, List.reverse_cons, List.find?_append]
    cases h : rs.reverse.find? (fun r2 => k = lastFmKey r2) with
    | some r2 => simp [h]
    | none =>
      simp only [h, Option.none_or]
      rw [List.find?_cons]
      by_cases hk : k = lastFmKey r
      · simp [hk]
      · simp [hk]

/-- The play-count map lookup returns the play count of the last record with
the given normalized key (`Map.set` is last-write-wins), `none` when no record
has it. -/
lemma buildLastFmPlayCountMap_eq (top : List LastFmTopTrack) (k : String) :
    buildLastFmPlayCountMap top k
      = (top.reverse.find? (fun r => k = lastFmKey r)).map LastFmTopTrack.playcount := by
  unfold buildLastFmPlayCountMap
  rw [buildMap_lookup]
  cases top.reverse.find? (fun r => k = lastFmKey r) <;> rfl

lemma matchTracks_map_toSpotify (liked : List SpotifyTrack) (top : List LastFmTopTrack) :
    (matchTracks liked top).map TrackWithPlayCount.toSpotifyTrack
      = liked.filter
          (fun t => (buildLastFmPlayCountMap top (spotifyKey t)).isSome) := by
  rw [matchTracks_eq_filterMap]
  induction liked with
  | nil => rfl
  | cons t ts ih =>
    rw [List.filterMap_cons, List.filter_cons]
    cases h : buildLastFmPlayCountMap top (spotifyKey t) with
    | none =>
      have hone : matchOne (buildLastFmPlayCountMap top) t = none := by
        unfold matchOne
        rw [h]
      simp only [hone, h, Option.isSome_none, Bool.false_eq_true, if_false]
      exact ih
    | some pc =>
      have hone : matchOne (buildLastFmPlayCountMap top) t = some ⟨t, some pc⟩ := by
        unfold matchOne
        rw [h]
      simp only [hone, h, Option.isSome_some, if_true, List.filterMap_cons, List.map_cons]
      rw [ih]

lemma matchTracks_playCount (liked : List SpotifyTrack) (top : List LastFmTopTrack)
    (mt : TrackWithPlayCount) (hmem : mt ∈ matchTracks liked top) :
    mt.lastFmPlayCount
      = buildLastFmPlayCountMap top (spotifyKey mt.toSpotifyTrack) := by
  rw [matchTracks_eq_filterMap] at hmem
  obtain ⟨t, _, hone⟩ := List.mem_filterMap.mp hmem
  unfold matchOne at hone
  cases h : buildLastFmPlayCountMap top (spotifyKey t) with
  | none => rw [h] at hone; cases hone
  | some pc =>
    rw [h] at hone
    cases hone
    simpa using h.symm

/-- C3: the Track Matcher keeps exactly the liked tracks whose normalized key
occurs among the Last.fm records' keys, in their original relative order; each
kept track is annotated with the play count of the last record bearing its key
(last write wins), and the output is never longer than the input. -/
theorem matchTracks_spec (liked : List SpotifyTrack) (top : List LastFmTopTrack)
    (mt : TrackWithPlayCount) (k : String) :
    (matchTracks liked top).map TrackWithPlayCount.toSpotifyTrack
        = liked.filter
            (fun t => (buildLastFmPlayCountMap top (spotifyKey t)).isSome)
      ∧ ((buildLastFmPlayCountMap top k).isSome ↔ k ∈ top.map lastFmKey)
      ∧ (mt ∈ matchTracks liked top →
          mt.lastFmPlayCount
            = (top.reverse.find?
                (fun r => spotifyKey mt.toSpotifyTrack = lastFmKey r)).map
                LastFmTopTrack.playcount)
      ∧ (matchTracks liked top).length ≤ liked.length := by
  refine ⟨matchTracks_map_toSpotify liked top, ?_, ?_, ?_⟩
  · rw [buildLastFmPlayCountMap_eq]
    simp only [Option.isSome_map']
    rw [List.find?_isSome]
    constructor
    · rintro ⟨r, hr, hp⟩
      refine List.mem_map.mpr ⟨r, ?_, ?_⟩
      · exact List.mem_reverse.mp hr
      · exact (by simpa using hp : k = lastFmKey r).symm
    · intro hmem
      obtain ⟨r, hr, hk⟩ := List.mem_map.mp hmem
      exact ⟨r, List.mem_reverse.mpr hr, by simpa using hk.symm⟩
  · intro hmem
    rw [matchTracks_playCount liked top mt hmem, buildLastFmPlayCountMap_eq]
  · rw [matchTracks_eq_filterMap]
    exact List.length_filterMap_le _ _

/-- Witness for C3 at a concrete instance: with one liked track and two
records sharing its key, the match keeps the track, annotates it with the
later record's count, and the biconditional and order facts hold. -/
theorem matchTracks_spec_witness :
    (matchTracks [⟨"i", "Song", [⟨"Art"⟩], "u:i"⟩]
          [⟨"Art", "Song", 3⟩, ⟨"Art", "Song", 9⟩]).map
        TrackWithPlayCount.toSpotifyTrack
      = [⟨"i", "Song", [⟨"Art"⟩], "u:i"⟩].filter
          (fun t => (buildLastFmPlayCountMap
            [⟨"Art", "Song", 3⟩, ⟨"Art", "Song", 9⟩] (spotifyKey t)).isSome)
    ∧ (⟨⟨"i", "Song", [⟨"Art"⟩], "u:i"⟩, some 9⟩ : TrackWithPlayCount).lastFmPlayCount
      = (([⟨"Art", "Song", 3⟩,
          (⟨"Art", "Song", 9⟩ : LastFmTopTrack)].reverse.find?
            (fun r => spotifyKey
              (⟨⟨"i", "Song", [⟨"Art"⟩], "u:i"⟩,
                some 9⟩ : TrackWithPlayCount).toSpotifyTrack = lastFmKey r)).map
          LastFmTopTrack.playcount) := by
  have h := matchTracks_spec [⟨"i", "Song", [⟨"Art"⟩], "u:i"⟩]
    [⟨"Art", "Song", 3⟩, ⟨"Art", "Song", 9⟩]
    ⟨⟨"i", "Song", [⟨"Art"⟩], "u:i"⟩, some 9⟩ "x"
  exact ⟨h.1, h.2.2.1 (by decide)⟩

/-- C10: the flat string key can identify a Track and a Last.fm record whose
(artist, title) pairs differ: artist "A" with title "B - C" produces the same
key as artist "A - B" with title "C", so the matcher pairs them and the track
receives that record's play count. -/
theorem matchTracks_cross_field_collision :
    spotifyKey ⟨"id1", "B - C", [⟨"A"⟩], "u:1"⟩ = lastFmKey ⟨"A - B", "C", 7⟩
    ∧ ("B - C" : String) ≠ "C"
    ∧ ([⟨"A"⟩] : List SpotifyArtist) ≠ [⟨"A - B"⟩]
    ∧ matchTracks [⟨"id1", "B - C", [⟨"A"⟩], "u:1"⟩] [⟨"A - B", "C", 7⟩]
      = [⟨⟨"id1", "B - C", [⟨"A"⟩], "u:1"⟩, some 7⟩] := by
  decide

lemma addTracksGo_no_puts (res : Nat → Except String Unit) (b : Nat) (us : List String)
    (i : Nat) : (addTracksGo res us b i).1.filterMap statusOf = [] := by
  induction b generalizing us i with
  | zero => cases us <;> simp [addTracksGo]
  | succ b ih =>
    cases us with
    | nil => simp [addTracksGo]
    | cons u us' =>
      rw [addTracksGo]
      cases h : res i with
      | error e => simp [h, statusOf]
      | ok _ => simp [h, statusOf, ih]

/-- C4: for every environment, the snapshot statuses of a job, in write order,
start at `pending`, move only along the allowed transitions (the fixed forward
order, the two short-circuits to `completed`, and `failed` from a non-terminal
state), and once a terminal snapshot is written nothing further is written. -/
theorem jobTrace_valid (env : JobEnv) :
    validTrace ((jobSnapshots env).map (fun s => s.status)) = true := by
  unfold jobSnapshots jobTrace startPlaylistGeneration
  cases hfetch : fetchAllLikedSongs env.spotifyPages with
  | error e => simp [statusOf, validTrace, chainOK, stageSnapshot, failedSnapshot,
      pendingSnapshot, fetchingLikedSnapshot, allowedStep, isTerminal]
  | ok likedTracks =>
    by_cases hempty : likedTracks.length = 0
    · simp [hempty, statusOf, validTrace, chainOK, stageSnapshot, pendingSnapshot,
        fetchingLikedSnapshot, emptyCatalogSnapshot, allowedStep, isTerminal]
    · by_cases hmatch : (matchTracks likedTracks
          (fetchLastFmTopTracks env.lastFmPages)).length = 0
      · simp [hempty, hmatch, statusOf, validTrace, chainOK, stageSnapshot,
          pendingSnapshot, fetchingLikedSnapshot, fetchingLastFmSnapshot,
          matchingSnapshot, emptyMatchSnapshot, allowedStep, isTerminal]
      · cases hcreate : env.createPlaylistResult with
        | error e =>
          simp [hempty, hmatch, hcreate, statusOf, validTrace, chainOK, stageSnapshot,
            pendingSnapshot, fetchingLikedSnapshot, fetchingLastFmSnapshot,
            matchingSnapshot, shuffleSnapshot, creatingSnapshot, failedSnapshot,
            allowedStep, isTerminal]
        | ok pl =>
          cases herr : (addTracksGo env.addTracksResult
              ((applyShuffleLogic env.rand (matchTracks likedTracks
                (fetchLastFmTopTracks env.lastFmPages))).map (fun t => t.uri)) 40 0).2 with
          | some e =>
            simp [hempty, hmatch, hcreate, addTracksToPlaylist, herr, statusOf,
              addTracksGo_no_puts, validTrace, chainOK, stageSnapshot, pendingSnapshot,
              fetchingLikedSnapshot, fetchingLastFmSnapshot, matchingSnapshot,
              shuffleSnapshot, creatingSnapshot, addingSnapshot, failedSnapshot,
              allowedStep, isTerminal]
          | none =>
            simp [hempty, hmatch, hcreate, addTracksToPlaylist, herr, statusOf,
              addTracksGo_no_puts, validTrace, chainOK, stageSnapshot, pendingSnapshot,
              fetchingLikedSnapshot, fetchingLastFmSnapshot, matchingSnapshot,
              shuffleSnapshot, creatingSnapshot, addingSnapshot, successSnapshot,
              allowedStep, isTerminal]

/-! ## Short-circuits and failure handling (C5, C6) -/

/-- C5: if the liked-songs fetch returns zero tracks the orchestrator writes
the explanatory `completed` snapshot immediately and performs nothing further
(no playlist creation, no track adding); likewise a zero-track match result
ends the run with the explanatory `completed` snapshot right after the
matching snapshot.  In both cases the run ends `completed`, never `failed`. -/
theorem emptyData_completed (env : JobEnv) (liked : List SpotifyTrack) :
    (fetchAllLikedSongs env.spotifyPages = Except.ok [] →
      startPlaylistGeneration env
        = [JobEvent.putStatus fetchingLikedSnapshot,
           JobEvent.putStatus emptyCatalogSnapshot])
    ∧ (fetchAllLikedSongs env.spotifyPages = Except.ok liked → liked ≠ [] →
        matchTracks liked (fetchLastFmTopTracks env.lastFmPages) = [] →
        startPlaylistGeneration env
          = [JobEvent.putStatus fetchingLikedSnapshot,
             JobEvent.putStatus fetchingLastFmSnapshot,
             JobEvent.putStatus (matchingSnapshot liked.length),
             JobEvent.putStatus emptyMatchSnapshot]) := by
  constructor
  · intro h
    unfold startPlaylistGeneration
    rw [h]
    simp
  · intro h hne hmatch
    have hlen : ¬liked.length = 0 := fun hl => hne (List.length_eq_zero.mp hl)
    unfold startPlaylistGeneration
    rw [h]
    simp [hlen, hmatch]

/-- Witness for C5: a concrete environment with no Spotify pages hits the
empty-catalog short-circuit, and one with a liked track but no Last.fm pages
hits the empty-match short-circuit. -/
theorem emptyData_completed_witness :
    startPlaylistGeneration
        ⟨[], [], Except.ok ⟨"p", "u"⟩, fun _ => Except.ok (), fun _ _ => 0, "d"⟩
      = [JobEvent.putStatus fetchingLikedSnapshot,
         JobEvent.putStatus emptyCatalogSnapshot]
    ∧ startPlaylistGeneration
        ⟨[Except.ok [⟨"i", "S", [⟨"A"⟩], "u:i"⟩]], [], Except.ok ⟨"p", "u"⟩,
          fun _ => Except.ok (), fun _ _ => 0, "d"⟩
      = [JobEvent.putStatus fetchingLikedSnapshot,
         JobEvent.putStatus fetchingLastFmSnapshot,
         JobEvent.putStatus (matchingSnapshot 1),
         JobEvent.putStatus emptyMatchSnapshot] := by
  constructor
  · exact (emptyData_completed
      ⟨[], [], Except.ok ⟨"p", "u"⟩, fun _ => Except.ok (), fun _ _ => 0, "d"⟩ []).1 rfl
  · exact (emptyData_completed
      ⟨[Except.ok [⟨"i", "S", [⟨"A"⟩], "u:i"⟩]], [], Except.ok ⟨"p", "u"⟩,
        fun _ => Except.ok (), fun _ _ => 0, "d"⟩
      [⟨"i", "S", [⟨"A"⟩], "u:i"⟩]).2 rfl (by decide) (by decide)

/-- C6: a thrown error in any stage produces exactly one final `failed`
snapshot carrying the error message, with no further stage events after it;
an add-tracks failure does not undo the already performed playlist-creation
call.  A non-empty error message is stored verbatim in the snapshot's `error`
field. -/
theorem failure_writes_single_failed (env : JobEnv) (e : String)
    (liked : List SpotifyTrack) (pl : PlaylistInfo) :
    (fetchAllLikedSongs env.spotifyPages = Except.error e →
      startPlaylistGeneration env
        = [JobEvent.putStatus fetchingLikedSnapshot,
           JobEvent.putStatus (failedSnapshot e)])
    ∧ (fetchAllLikedSongs env.spotifyPages = Except.ok liked → liked ≠ [] →
        matchTracks liked (fetchLastFmTopTracks env.lastFmPages) ≠ [] →
        env.createPlaylistResult = Except.error e →
        startPlaylistGeneration env
          = [JobEvent.putStatus fetchingLikedSnapshot,
             JobEvent.putStatus fetchingLastFmSnapshot,
             JobEvent.putStatus (matchingSnapshot liked.length),
             JobEvent.putStatus shuffleSnapshot,
             JobEvent.putStatus creatingSnapshot,
             JobEvent.putStatus (failedSnapshot e)])
    ∧ (fetchAllLikedSongs env.spotifyPages = Except.ok liked → liked ≠ [] →
        matchTracks liked (fetchLastFmTopTracks env.lastFmPages) ≠ [] →
        env.createPlaylistResult = Except.ok pl →
        (addTracksToPlaylist env.addTracksResult
            ((applyShuffleLogic env.rand (matchTracks liked
              (fetchLastFmTopTracks env.lastFmPages))).map (fun t => t.uri)) 40).2
          = some e →
        startPlaylistGeneration env
          = [JobEvent.putStatus fetchingLikedSnapshot,
             JobEvent.putStatus fetchingLastFmSnapshot,
             JobEvent.putStatus (matchingSnapshot liked.length),
             JobEvent.putStatus shuffleSnapshot,
             JobEvent.putStatus creatingSnapshot,
             JobEvent.createPlaylistCall (playlistNameOf env),
             JobEvent.putStatus (addingSnapshot
               (applyShuffleLogic env.rand (matchTracks liked
                 (fetchLastFmTopTracks env.lastFmPages))).length)]
            ++ (addTracksToPlaylist env.addTracksResult
                ((applyShuffleLogic env.rand (matchTracks liked
                  (fetchLastFmTopTracks env.lastFmPages))).map (fun t => t.uri)) 40).1
            ++ [JobEvent.putStatus (failedSnapshot e)]
        ∧ JobEvent.createPlaylistCall (playlistNameOf env) ∈ startPlaylistGeneration env)
    ∧ (e ≠ "" → (failedSnapshot e).error = some e) := by
  have hlen : liked ≠ [] → ¬liked.length = 0 := fun hne hl => hne (List.length_eq_zero.mp hl)
  have hmlen : matchTracks liked (fetchLastFmTopTracks env.lastFmPages) ≠ [] →
      ¬(matchTracks liked (fetchLastFmTopTracks env.lastFmPages)).length = 0 :=
    fun hne hl => hne (List.length_eq_zero.mp hl)
  refine ⟨?_, ?_, ?_, ?_⟩
  · intro h
    unfold startPlaylistGeneration
    rw [h]
  · intro h hne hm hc
    unfold startPlaylistGeneration
    rw [h]
    simp [hlen hne, hmlen hm, hc]
  · intro h hne hm hc herr
    have heq : startPlaylistGeneration env
        = [JobEvent.putStatus fetchingLikedSnapshot,
           JobEvent.putStatus fetchingLastFmSnapshot,
           JobEvent.putStatus (matchingSnapshot liked.length),
           JobEvent.putStatus shuffleSnapshot,
           JobEvent.putStatus creatingSnapshot,
           JobEvent.createPlaylistCall (playlistNameOf env),
           JobEvent.putStatus (addingSnapshot
             (applyShuffleLogic env.rand (matchTracks liked
               (fetchLastFmTopTracks env.lastFmPages))).length)]
          ++ (addTracksToPlaylist env.addTracksResult
              ((applyShuffleLogic env.rand (matchTracks liked
                (fetchLastFmTopTracks env.lastFmPages))).map (fun t => t.uri)) 40).1
          ++ [JobEvent.putStatus (failedSnapshot e)] := by
      unfold startPlaylistGeneration
      rw [h]
      simp [hlen hne, hmlen hm, hc, herr]
    refine ⟨heq, ?_⟩
    rw [heq]
    simp
  · intro hne
    simp [failedSnapshot, hne]

/-- Witness for C6: a concrete environment whose single Spotify page throws
produces exactly the two snapshots, the second being the `failed` one carrying
the message. -/
theorem failure_writes_single_failed_witness :
    startPlaylistGeneration
        ⟨[Except.error "boom"], [], Except.ok ⟨"p", "u"⟩,
          fun _ => Except.ok (), fun _ _ => 0, "d"⟩
      = [JobEvent.putStatus fetchingLikedSnapshot,
         JobEvent.putStatus (failedSnapshot "boom")]
    ∧ (failedSnapshot "boom").error = some "boom" := by
  have h := failure_writes_single_failed
    ⟨[Except.error "boom"], [], Except.ok ⟨"p", "u"⟩,
      fun _ => Except.ok (), fun _ _ => 0, "d"⟩ "boom" [] ⟨"p", "u"⟩
  exact ⟨h.1 rfl, h.2.2.2 (by decide)⟩

/-! ## Upstream fetch failure asymmetry (C7) -/

lemma fetchAllLikedSongs_error (good : List (List SpotifyTrack)) (e : String)
    (rest : List (Except String (List SpotifyTrack))) :
    fetchAllLikedSongs ((good.map Except.ok) ++ Except.error e :: rest)
      = Except.error e := by
  induction good with
  | nil => rfl
  | cons g gs ih =>
    show fetchAllLikedSongs (Except.ok g :: (gs.map Except.ok ++ Except.error e :: rest))
      = Except.error e
    unfold fetchAllLikedSongs
    rw [ih]

lemma fetchLastFmTopTracks_stops (goodL : List (List LastFmTopTrack))
    (restL : List (Option (List LastFmTopTrack))) :
    fetchLastFmTopTracks ((goodL.map some) ++ none :: restL) = goodL.flatten := by
  induction goodL with
  | nil => rfl
  | cons g gs ih =>
    show fetchLastFmTopTracks (some g :: (gs.map some ++ none :: restL)) = _
    unfold fetchLastFmTopTracks
    rw [ih, List.flatten_cons]

lemma addTracksGo_ok_none (res : Nat → Except String Unit)
    (hok : ∀ n, res n = Except.ok ()) (b : Nat) (us : List String) (i : Nat) :
    (addTracksGo res us b i).2 = none := by
  induction b generalizing us i with
  | zero => cases us <;> simp [addTracksGo]
  | succ b ih =>
    cases us with
    | nil => simp [addTracksGo]
    | cons u us' =>
      rw [addTracksGo]
      simp [hok i, ih]

lemma lastSnapshot_completed (env : JobEnv) (liked : List SpotifyTrack) (pl : PlaylistInfo)
    (hok : ∀ n, env.addTracksResult n = Except.ok ())
    (hcreate : env.createPlaylistResult = Except.ok pl)
    (hliked : fetchAllLikedSongs env.spotifyPages = Except.ok liked) :
    ((jobSnapshots env).map (fun s => s.status)).getLast? = some JobState.completed := by
  unfold jobSnapshots jobTrace startPlaylistGeneration
  rw [hliked]
  by_cases hempty : liked.length = 0
  · simp [hempty, statusOf, emptyCatalogSnapshot]
  · by_cases hmatch : (matchTracks liked (fetchLastFmTopTracks env.lastFmPages)).length = 0
    · simp [hempty, hmatch, statusOf, emptyMatchSnapshot]
    · have herr := addTracksGo_ok_none env.addTracksResult hok 40
        ((applyShuffleLogic env.rand (matchTracks liked
          (fetchLastFmTopTracks env.lastFmPages))).map (fun t => t.uri)) 0
      simp [hempty, hmatch, hcreate, addTracksToPlaylist, herr, statusOf,
        addTracksGo_no_puts, successSnapshot]

lemma lastSnapshot_failed (env : JobEnv) (e : String)
    (h : fetchAllLikedSongs env.spotifyPages = Except.error e) :
    ((jobSnapshots env).map (fun s => s.status)).getLast? = some JobState.failed := by
  unfold jobSnapshots jobTrace startPlaylistGeneration
  rw [h]
  simp [statusOf, failedSnapshot]

/-- C7: a failing Spotify liked-songs page aborts the whole fetch with that
error, and any run whose liked-songs fetch throws ends in `failed`; a failing
Last.fm page only stops the pagination, the earlier pages are kept, and a run
whose other stages succeed ends in `completed` whatever the Last.fm pages
(including failing ones) returned. -/
theorem fetch_failure_asymmetry (good : List (List SpotifyTrack))
    (goodL : List (List LastFmTopTrack)) (e : String)
    (rest : List (Except String (List SpotifyTrack)))
    (restL : List (Option (List LastFmTopTrack)))
    (env : JobEnv) (liked : List SpotifyTrack) (pl : PlaylistInfo) :
    fetchAllLikedSongs ((good.map Except.ok) ++ Except.error e :: rest)
        = Except.error e
    ∧ fetchLastFmTopTracks ((goodL.map some) ++ none :: restL) = goodL.flatten
    ∧ (fetchAllLikedSongs env.spotifyPages = Except.error e →
        ((jobSnapshots env).map (fun s => s.status)).getLast? = some JobState.failed)
    ∧ ((∀ n, env.addTracksResult n = Except.ok ()) →
        env.createPlaylistResult = Except.ok pl →
        fetchAllLikedSongs env.spotifyPages = Except.ok liked →
        ((jobSnapshots env).map (fun s => s.status)).getLast?
          = some JobState.completed) :=
  ⟨fetchAllLikedSongs_error good e rest,
   fetchLastFmTopTracks_stops goodL restL,
   fun h => lastSnapshot_failed env e h,
   fun hok hcreate hliked => lastSnapshot_completed env liked pl hok hcreate hliked⟩

/-- Witness for C7: one good Spotify page then an error aborts with the error;
one good Last.fm page then a failure keeps the good page; a run with a failing
Last.fm page still ends `completed` while a run with a failing Spotify page
ends `failed`. -/
theorem fetch_failure_asymmetry_witness :
    fetchAllLikedSongs
        (([[⟨"i", "S", [⟨"A"⟩], "u:i"⟩]].map Except.ok) ++ Except.error "down" :: [])
      = Except.error "down"
    ∧ fetchLastFmTopTracks (([[⟨"A", "S", 2⟩]].map some) ++ none :: [])
      = [[⟨"A", "S", 2⟩]].flatten
    ∧ ((jobSnapshots ⟨[Except.error "down"], [], Except.ok ⟨"p", "u"⟩,
          fun _ => Except.ok (), fun _ _ => 0, "d"⟩).map (fun s => s.status)).getLast?
      = some JobState.failed
    ∧ ((jobSnapshots ⟨[Except.ok [⟨"i", "S", [⟨"A"⟩], "u:i"⟩]],
          [some [⟨"A", "S", 2⟩], none, some [⟨"B", "T", 5⟩]],
          Except.ok ⟨"p", "u"⟩, fun _ => Except.ok (), fun _ _ => 0, "d"⟩).map
            (fun s => s.status)).getLast?
      = some JobState.completed := by
  have h := fetch_failure_asymmetry [[⟨"i", "S", [⟨"A"⟩], "u:i"⟩]] [[⟨"A", "S", 2⟩]]
    "down" [] []
    ⟨[Except.error "down"], [], Except.ok ⟨"p", "u"⟩,
      fun _ => Except.ok (), fun _ _ => 0, "d"⟩ [] ⟨"p", "u"⟩
  have h2 := fetch_failure_asymmetry [] [] "x" [] []
    ⟨[Except.ok [⟨"i", "S", [⟨"A"⟩], "u:i"⟩]],
      [some [⟨"A", "S", 2⟩], none, some [⟨"B", "T", 5⟩]],
      Except.ok ⟨"p", "u"⟩, fun _ => Except.ok (), fun _ _ => 0, "d"⟩
    [⟨"i", "S", [⟨"A"⟩], "u:i"⟩] ⟨"p", "u"⟩
  exact ⟨h.1, h.2.1, h.2.2.1 rfl, h2.2.2.2 (fun _ => rfl) rfl rfl⟩

/-! ## Playlist publisher batching (C8) -/

lemma addTracksGo_flatten (res : Nat → Except String Unit)
    (hok : ∀ n, res n = Except.ok ()) (b : Nat) (us : List String) (i : Nat) :
    (callBatches (addTracksGo res us b i).1).flatten = us.take (b * 100) := by
  induction b generalizing us i with
  | zero => cases us <;> simp [addTracksGo, callBatches]
  | succ b ih =>
    cases us with
    | nil => simp [addTracksGo, callBatches]
    | cons u us' =>
      rw [addTracksGo]
      simp only [hok i, callBatches, List.filterMap_cons, List.flatten_cons]
      have hrest := ih ((u :: us').drop 100) (i + 1)
      simp only [callBatches] at hrest
      rw [hrest, show (b + 1) * 100 = 100 + b * 100 by ring, List.take_add]

lemma addTracksGo_batches_le (res : Nat → Except String Unit) (b : Nat)
    (us : List String) (i : Nat) :
    (callBatches (addTracksGo res us b i).1).length ≤ b := by
  induction b generalizing us i with
  | zero => cases us <;> simp [addTracksGo, callBatches]
  | succ b ih =>
    cases us with
    | nil => simp [addTracksGo, callBatches]
    | cons u us' =>
      rw [addTracksGo]
      cases h : res i with
      | error e => simp [callBatches]
      | ok _ =>
        simp only [callBatches, List.filterMap_cons, List.length_cons]
        have := ih ((u :: us').drop 100) (i + 1)
        simp only [callBatches] at this
        omega

lemma addTracksGo_batch_sizes (res : Nat → Except String Unit) (b : Nat)
    (us : List String) (i : Nat) :
    ∀ batch ∈ callBatches (addTracksGo res us b i).1, batch.length ≤ 100 := by
  induction b generalizing us i with
  | zero => cases us <;> simp [addTracksGo, callBatches]
  | succ b ih =>
    cases us with
    | nil => simp [addTracksGo, callBatches]
    | cons u us' =>
      rw [addTracksGo]
      cases h : res i with
      | error e =>
        simp only [callBatches, List.filterMap_cons]
        intro batch hb
        rw [List.filterMap_nil, List.mem_singleton] at hb
        subst hb
        exact List.length_take_le _ _
      | ok _ =>
        simp only [callBatches, List.filterMap_cons]
        intro batch hb
        rcases List.mem_cons.mp hb with rfl | hb'
        · exact List.length_take_le _ _
        · exact ih ((u :: us').drop 100) (i + 1) batch hb'

set_option maxRecDepth 4000 in
/-- C8: with all requests succeeding, the publisher submits the identifiers in
their given order in consecutive batches of at most 100 each, makes at most
`maxRequests` requests, and thus submits exactly `min(total, maxRequests*100)`
identifiers without raising any error; with batch size 100, budget 2 and 350
identifiers exactly 200 identifiers go out in 2 batches and the truncation
warning fires. -/
theorem addTracksToPlaylist_batches (res : Nat → Except String Unit)
    (trackUris : List String) (maxRequests : Nat)
    (hok : ∀ n, res n = Except.ok ()) :
    (callBatches (addTracksToPlaylist res trackUris maxRequests).1).flatten
        = trackUris.take (maxRequests * 100)
    ∧ (callBatches (addTracksToPlaylist res trackUris maxRequests).1).flatten.length
        = min trackUris.length (maxRequests * 100)
    ∧ (callBatches (addTracksToPlaylist res trackUris maxRequests).1).length
        ≤ maxRequests
    ∧ (∀ batch ∈ callBatches (addTracksToPlaylist res trackUris maxRequests).1,
        batch.length ≤ 100)
    ∧ (addTracksToPlaylist res trackUris maxRequests).2 = none
    ∧ (callBatches (addTracksToPlaylist (fun _ => Except.ok ())
        (List.replicate 350 "u") 2).1).flatten.length = 200
    ∧ (callBatches (addTracksToPlaylist (fun _ => Except.ok ())
        (List.replicate 350 "u") 2).1).length = 2
    ∧ truncationWarned (List.replicate 350 "u") 2 2 = true := by
  refine ⟨addTracksGo_flatten res hok maxRequests trackUris 0, ?_,
    addTracksGo_batches_le res maxRequests trackUris 0,
    addTracksGo_batch_sizes res maxRequests trackUris 0,
    addTracksGo_ok_none res hok maxRequests trackUris 0, ?_, ?_, ?_⟩
  · show (callBatches (addTracksGo res trackUris maxRequests 0).1).flatten.length = _
    rw [addTracksGo_flatten res hok maxRequests trackUris 0, List.length_take,
      Nat.min_comm]
  · decide
  · decide
  · decide

/-- Witness for C8 with an always-succeeding request function and a concrete
identifier list of length 350 and budget 2. -/
theorem addTracksToPlaylist_batches_witness :
    (callBatches (addTracksToPlaylist (fun _ => Except.ok ())
        (List.replicate 350 "u") 2).1).flatten
        = (List.replicate 350 "u").take (2 * 100)
    ∧ (callBatches (addTracksToPlaylist (fun _ => Except.ok ())
        (List.replicate 350 "u") 2).1).flatten.length = 200
    ∧ truncationWarned (List.replicate 350 "u") 2 2 = true := by
  have h := addTracksToPlaylist_batches (fun _ => Except.ok ())
    (List.replicate 350 "u") 2 (fun _ => rfl)
  exact ⟨h.1, h.2.2.2.2.2.1, h.2.2.2.2.2.2.2⟩

/-! ## Retention of snapshots (C9) -/

/-- C9 counterexample: in the empty-catalog run the `completed` snapshot is
written with no TTL (index.ts lines 482-487 pass no `expirationTtl`), so it is
not the case that every terminal snapshot carries the one-hour TTL. -/
theorem terminal_ttl_counterexample :
    ¬(∀ s ∈ jobSnapshots ⟨[], [], Except.ok ⟨"p", "u"⟩, fun _ => Except.ok (),
        fun _ _ => 0, "d"⟩,
      (s.status = JobState.completed ∨ s.status = JobState.failed) →
        s.expirationTtl = some 3600) := by
  decide

/-- C9 (amended): `failed` snapshots and the successful final `completed`
snapshot (the one carrying a playlist URL) are written with the one-hour TTL
3600; the two short-circuit `completed` snapshots (which carry no playlist
URL) and all non-terminal snapshots are written with no expiry. -/
theorem terminal_ttl (env : JobEnv) (s : PlaylistStatusSnapshot)
    (hmem : s ∈ jobSnapshots env) :
    (s.status = JobState.failed → s.expirationTtl = some 3600)
    ∧ (s.status = JobState.completed →
        (s.playlistUrl.isSome = true ∧ s.expirationTtl = some 3600)
        ∨ (s.playlistUrl = none ∧ s.expirationTtl = none))
    ∧ (s.status ≠ JobState.completed ∧ s.status ≠ JobState.failed →
        s.expirationTtl = none) := by
  unfold jobSnapshots jobTrace startPlaylistGeneration at hmem
  cases hfetch : fetchAllLikedSongs env.spotifyPages with
  | error e =>
    rw [hfetch] at hmem
    simp only [List.filterMap_cons, List.filterMap_nil, statusOf, List.mem_cons, List.mem_singleton,
      List.not_mem_nil, or_false] at hmem
    rcases hmem with rfl | rfl | rfl <;>
      simp [pendingSnapshot, fetchingLikedSnapshot, stageSnapshot, failedSnapshot]
  | ok likedTracks =>
    rw [hfetch] at hmem
    by_cases hempty : likedTracks.length = 0
    · simp only [hempty, if_true, List.filterMap_cons, List.filterMap_nil, statusOf, List.mem_cons,
        List.mem_singleton, List.not_mem_nil, or_false] at hmem
      rcases hmem with rfl | rfl | rfl <;>
        simp [pendingSnapshot, fetchingLikedSnapshot, stageSnapshot, emptyCatalogSnapshot]
    · by_cases hmatch : (matchTracks likedTracks
          (fetchLastFmTopTracks env.lastFmPages)).length = 0
      · simp only [hempty, hmatch, if_true, if_false, List.filterMap_cons, List.filterMap_nil, statusOf,
          List.mem_cons, List.mem_singleton, List.not_mem_nil, or_false] at hmem
        rcases hmem with rfl | rfl | rfl | rfl | rfl <;>
          simp [pendingSnapshot, fetchingLikedSnapshot, fetchingLastFmSnapshot,
            matchingSnapshot, stageSnapshot, emptyMatchSnapshot]
      · cases hcreate : env.createPlaylistResult with
        | error e =>
          simp only [hempty, hmatch, hcreate, if_false, List.filterMap_cons, List.filterMap_nil, statusOf,
            List.mem_cons, List.mem_singleton, List.not_mem_nil, or_false] at hmem
          rcases hmem with rfl | rfl | rfl | rfl | rfl | rfl | rfl <;>
            simp [pendingSnapshot, fetchingLikedSnapshot, fetchingLastFmSnapshot,
              matchingSnapshot, shuffleSnapshot, creatingSnapshot, stageSnapshot,
              failedSnapshot]
        | ok pl =>
          cases herr : (addTracksGo env.addTracksResult
              ((applyShuffleLogic env.rand (matchTracks likedTracks
                (fetchLastFmTopTracks env.lastFmPages))).map (fun t => t.uri)) 40 0).2 with
          | some e =>
            simp only [hempty, hmatch, hcreate, addTracksToPlaylist, herr, if_false,
              List.filterMap_cons, List.filterMap_nil, List.filterMap_append, addTracksGo_no_puts, statusOf,
              List.mem_cons, List.mem_singleton, List.mem_append, List.not_mem_nil,
              or_false, List.nil_append, List.append_nil] at hmem
            rcases hmem with rfl | (rfl | rfl | rfl | rfl | rfl | rfl) | rfl <;>
              simp [pendingSnapshot, fetchingLikedSnapshot, fetchingLastFmSnapshot,
                matchingSnapshot, shuffleSnapshot, creatingSnapshot, addingSnapshot,
                stageSnapshot, failedSnapshot]
          | none =>
            simp only [hempty, hmatch, hcreate, addTracksToPlaylist, herr, if_false,
              List.filterMap_cons, List.filterMap_nil, List.filterMap_append, addTracksGo_no_puts, statusOf,
              List.mem_cons, List.mem_singleton, List.mem_append, List.not_mem_nil,
              or_false, List.nil_append, List.append_nil] at hmem
            rcases hmem with rfl | (rfl | rfl | rfl | rfl | rfl | rfl) | rfl <;>
              simp [pendingSnapshot, fetchingLikedSnapshot, fetchingLastFmSnapshot,
                matchingSnapshot, shuffleSnapshot, creatingSnapshot, addingSnapshot,
                stageSnapshot, successSnapshot]

/-- Witness for C9 (amended): the successful final snapshot of a concrete run
carries the TTL, and the pending snapshot of the same run carries none. -/
theorem terminal_ttl_witness :
    (successSnapshot (playlistNameOf ⟨[], [], Except.ok ⟨"p", "u"⟩,
        fun _ => Except.ok (), fun _ _ => 0, "d"⟩) "u").expirationTtl = some 3600
    ∧ pendingSnapshot.expirationTtl = none := by
  have h1 := terminal_ttl
    ⟨[], [], Except.ok ⟨"p", "u"⟩, fun _ => Except.ok (), fun _ _ => 0, "d"⟩
    pendingSnapshot (by decide)
  refine ⟨rfl, h1.2.2 (by decide)⟩

/-- Witness for C1: a concrete one-track input with play count 1; level 0 has
an empty pool and contributes an empty block. -/
theorem applyShuffleLogic_blocks_witness :
    applyShuffleLogic (fun _ _ => 0) [⟨⟨"a", "A", [], "u:a"⟩, some 1⟩]
        = ((List.range (maxPlayCount [⟨⟨"a", "A", [], "u:a"⟩, some 1⟩] + 1)).map
            (blockAt (fun _ _ => 0) [⟨⟨"a", "A", [], "u:a"⟩, some 1⟩])).flatten
    ∧ blockAt (fun _ _ => 0) [⟨⟨"a", "A", [], "u:a"⟩, some 1⟩] 0 = [] := by
  have h := applyShuffleLogic_blocks (fun _ _ => 0) (fun _ _ => 1)
    [⟨⟨"a", "A", [], "u:a"⟩, some 1⟩]
  exact ⟨h.1, h.2.2.1 0 (by decide)⟩

/-- Witness for C4 at a concrete environment: a full successful run yields a
valid status sequence. -/
theorem jobTrace_valid_witness :
    validTrace ((jobSnapshots ⟨[Except.ok [⟨"i", "S", [⟨"A"⟩], "u:i"⟩]],
        [some [⟨"A", "S", 2⟩]], Except.ok ⟨"p", "u"⟩, fun _ => Except.ok (),
        fun _ _ => 0, "d"⟩).map (fun s => s.status)) = true :=
  jobTrace_valid ⟨[Except.ok [⟨"i", "S", [⟨"A"⟩], "u:i"⟩]],
    [some [⟨"A", "S", 2⟩]], Except.ok ⟨"p", "u"⟩, fun _ => Except.ok (),
    fun _ _ => 0, "d"⟩
